import Mathlib

/-!
Verification of dotenvx-interactive-cli: the file-discovery, selection and
subprocess-dispatch workflow of `src/index.ts` and its sibling variants.
The TypeScript functions are embedded as pure Lean functions; the external
capabilities (the interactive prompt, the spawned child process, the
filesystem) enter as explicit inputs.
-/

/-- A JavaScript `Error` value, as far as the program inspects it: the
handlers in the source only look at `error.name` and print `error.message`. -/
structure JsError where
  name : String
  message : String
  deriving DecidableEq, Repr

/-- A directory entry as the discovery glob sees it: a file name inside the
working directory plus whether the entry is a directory (the glob runs with
`nodir: true`). -/
structure DirEntry where
  name : String
  isDir : Bool
  deriving DecidableEq, Repr

/-- JavaScript `String.prototype.startsWith`, over the character list. -/
def jsStartsWith (s p : String) : Bool :=
  p.data.isPrefixOf s.data

/-- JavaScript `String.prototype.endsWith`, over the character list. -/
def jsEndsWith (s p : String) : Bool :=
  p.data.isSuffixOf s.data

/-- The glob stage of `findEnvFiles` (src/index.ts:60-64): pattern `.env*`
keeps names beginning with `.env`; the `ignore` list drops `.env.keys`,
`.env.keys.json` and `*.vault`; `nodir: true` drops directories. -/
def globEnvKeep (e : DirEntry) : Bool :=
  !e.isDir && jsStartsWith e.name ".env" &&
    !(e.name == ".env.keys") && !(e.name == ".env.keys.json") &&
    !(jsEndsWith e.name ".vault")

/-- `findEnvFiles` (src/index.ts:60-70): glob `.env*` with the ignore list,
then filter out every name ending in `.keys` or `.vault`. -/
def findEnvFiles (entries : List DirEntry) : List String :=
  ((entries.filter globEnvKeep).map DirEntry.name).filter
    (fun file => !(jsEndsWith file ".keys") && !(jsEndsWith file ".vault"))

/-- Discovery as claim C2 words it (refinement comparison only, not from the
source): the files matching the `.env` name pattern minus the key file
itself, its JSON variant, and the vault-suffixed files — with no exclusion
of other `.keys`-suffixed files. -/
def claimedEnvFiles (entries : List DirEntry) : List String :=
  (entries.filter (fun e =>
      !e.isDir && jsStartsWith e.name ".env" &&
        !(e.name == ".env.keys") && !(e.name == ".env.keys.json") &&
        !(jsEndsWith e.name ".vault"))).map DirEntry.name

/-- The exact predicate `findEnvFiles` implements on a directory entry:
a regular file whose name begins with `.env`, does not end in `.keys` or
`.vault`, and is not `.env.keys.json`. -/
def envCandidatePred (e : DirEntry) : Bool :=
  !e.isDir && jsStartsWith e.name ".env" &&
    !(jsEndsWith e.name ".keys") && !(jsEndsWith e.name ".vault") &&
    !(e.name == ".env.keys.json")

/-- Result of one selection round (src/index.ts:78-126): the files finally
returned, whether the interactive prompt capability was invoked at all, and
the informational messages logged by `selectFiles` itself. -/
structure SelectOutcome where
  selected : List String
  promptInvoked : Bool
  logs : List String
  deriving DecidableEq, Repr

/-- `selectFiles` (src/index.ts:78-126). The interactive checkbox is an
external capability; its settled outcome enters as `pr`: either the list the
operator confirmed (which may contain the sentinel value `"ALL"`), or the
error the prompt was rejected with (cancellation). An empty candidate list
short-circuits before the capability is consulted; if `"ALL"` is among the
confirmed values the whole candidate list is returned. -/
def selectFiles (files : List String) (action : String)
    (pr : Except JsError (List String)) : Except JsError SelectOutcome :=
  if files.isEmpty then
    .ok ⟨[], false, ["No .env files found in the current directory."]⟩
  else
    match pr with
    | .error e => .error e
    | .ok selectedFiles =>
        if selectedFiles.contains "ALL" then .ok ⟨files, true, []⟩
        else .ok ⟨selectedFiles, true, []⟩

/-- What the terminated child process produced: accumulated stdout and
stderr text, and its exit status — `none` when no numeric status is
available (e.g. terminated by a signal). -/
structure ChildOutcome where
  stdout : String
  stderr : String
  code : Option Int
  deriving DecidableEq, Repr

/-- The structured result `executeCommand` resolves with. -/
structure ExecutionResult where
  stdout : String
  stderr : String
  exitCode : Int
  deriving DecidableEq, Repr

/-- `executeCommand` (src/index.ts:15-26): runs the vault tool via
`$([cmd, ...args]).nothrow()` and resolves — only once the child has
terminated, which the model reflects by consuming the child's final
`ChildOutcome` — with the captured streams and `result.exitCode ?? 0`.
`nothrow()` means a non-zero status never becomes a thrown failure, so the
result is always `Except.ok`; the `Except` codomain records that the
callers wrap the call in `try`/`catch` all the same. -/
def executeCommand (cmd : String) (args : List String) (child : ChildOutcome) :
    Except JsError ExecutionResult :=
  let _ := (cmd, args)
  .ok ⟨child.stdout, child.stderr, child.code.getD 0⟩

/-- `checkEnvKeysFile` (src/index.ts:47-54): `fs.access(".env.keys")`
resolving means the key file is present; any rejection means absent. -/
def checkEnvKeysFile : Option Unit → Bool
  | some _ => true
  | none => false

/-- JavaScript `Array.prototype.join(" ")`, as used when a command line is
built by concatenation. -/
def joinSpace : List String → String
  | [] => ""
  | [s] => s
  | s :: rest => s ++ " " ++ joinSpace rest

/-- Splits a character stream into whitespace-delimited words, collapsing
runs of spaces — POSIX shell field splitting of an unquoted command line. -/
def wordsAux : List Char → List Char → List (List Char)
  | [], cur => if cur.isEmpty then [] else [cur.reverse]
  | c :: rest, cur =>
      if c = ' ' then
        if cur.isEmpty then wordsAux rest [] else cur.reverse :: wordsAux rest []
      else
        wordsAux rest (c :: cur)

/-- Field splitting of a command string handed unquoted to `sh -c`. -/
def shellWords (s : String) : List String :=
  (wordsAux s.data []).map String.mk

/-- The argv the child receives from the `part_001` runner
(`spawn(cmd, args, { shell: true })`, src/unnamed/part_001:18): Node joins
the command and the arguments with single spaces into one shell string, and
the shell word-splits it again. -/
def spawnShellArgv (cmd : String) (args : List String) : List String :=
  shellWords (joinSpace (cmd :: args))

/-- The argv the child receives from the canonical zx runner
(`$([cmd, ...args])`, src/index.ts:20): each array element is quoted as one
argument, so the child sees exactly the original discrete list. -/
def zxArgv (cmd : String) (args : List String) : List String :=
  cmd :: args

/-- The `-f ...` argument string of the `part_000` encrypt branch
(src/unnamed/part_000:125): `-f ${selectedFiles.join(" ")}`. -/
def bunRawFileArgs (files : List String) : String :=
  "-f " ++ joinSpace files

/-- The argv the child receives from the `part_000` encrypt branch
(src/unnamed/part_000:125-126): the joined string is spliced `raw` into the
bun shell template, so the shell word-splits the whole command line. -/
def bunRawEncryptArgv (files : List String) : List String :=
  shellWords ("dotenvx encrypt " ++ bunRawFileArgs files)

/-- The two startup probe results (src/index.ts:150-153), under the
source's own variable names. -/
structure Prerequisites where
  isDotenvxInstalled : Bool
  isEnvKeysFilePresent : Bool
  deriving DecidableEq, Repr

/-- The closed set of top-level menu actions (src/index.ts:176-181). -/
inductive MenuAction where
  | encrypt
  | decrypt
  | precommit
  | exitChoice
  deriving DecidableEq, Repr

/-- Everything observable from one run of `main` (src/index.ts:132-254)
before the top-level handlers fire: the log lines, the subprocess
invocations issued (executable plus argument list), the `ExecutionResult`s
the runner handed back, and the error `main`'s promise rejects with, if
any. -/
structure MainOutcome where
  logs : List String
  calls : List (String × List String)
  results : List ExecutionResult
  err : Option JsError
  deriving DecidableEq, Repr

/-- Message printed when the vault tool is missing (src/index.ts:157). -/
def msgDotenvxMissing : String := "❌ dotenvx is not installed on your system."

/-- Install remediation for the missing vault tool (src/index.ts:158). -/
def msgDotenvxInstallHint : String :=
  "Please install it using: npm install -g @dotenvx/dotenvx"

/-- Remediation printed when the key file is absent (src/index.ts:163). -/
def msgKeysMissing : String :=
  "No .env.keys file found. Please create one to proceed."

/-- Confirmation that the startup checks passed (src/index.ts:167). -/
def msgInstalled : String := "👌 dotenvx is installed"

/-- The cancellation error a prompt rejects with when the operator aborts
it mid-prompt. Modelled from the spec: the interactive prompt engine is an
external capability; on operator cancellation it yields a distinguished
error, which the source's own handlers recognise by the name
`"ExitPromptError"` (src/index.ts:257, src/unnamed/part_001:281). -/
def promptCancelError : JsError :=
  ⟨"ExitPromptError", "User force closed the prompt"⟩

/-- One encrypt-or-decrypt action body (src/index.ts:187-231): discover,
select, and — when the selection is non-empty — invoke the vault tool and
unconditionally log the success message; the captured `ExecutionResult` is
never inspected. A prompt rejection is caught, logged with the action's
error label, and rethrown. -/
def runFileAction (sub : String) (label : String) (successMsg : String)
    (noneMsg : String) (entries : List DirEntry)
    (pr : Except JsError (List String)) (child : ChildOutcome) : MainOutcome :=
  let files := findEnvFiles entries
  match selectFiles files sub pr with
  | .error e => ⟨[label], [], [], some e⟩
  | .ok sel =>
      if sel.selected.length > 0 then
        match executeCommand "dotenvx" ([sub, "-f"] ++ sel.selected) child with
        | .ok r =>
            ⟨sel.logs ++ [successMsg], [("dotenvx", [sub, "-f"] ++ sel.selected)], [r], none⟩
        | .error e =>
            ⟨sel.logs ++ [label], [("dotenvx", [sub, "-f"] ++ sel.selected)], [], some e⟩
      else
        ⟨sel.logs ++ [noneMsg], [], [], none⟩

/-- `main` (src/index.ts:132-254), past the help flag: the dotenvx probe is
checked first and throws with its own remediation; the key-file probe is
checked second; then the chosen menu action runs. Choosing Exit throws
`Error("User exited")`. -/
def mainRun (p : Prerequisites) (action : MenuAction) (entries : List DirEntry)
    (pr : Except JsError (List String)) (child : ChildOutcome) : MainOutcome :=
  if !p.isDotenvxInstalled then
    ⟨[msgDotenvxMissing, msgDotenvxInstallHint], [], [], some ⟨"Error", "dotenvx not installed"⟩⟩
  else if !p.isEnvKeysFilePresent then
    ⟨[msgKeysMissing], [], [], some ⟨"Error", ".env.keys file not found"⟩⟩
  else
    let o :=
      match action with
      | .encrypt =>
          runFileAction "encrypt" "Error encrypting files:"
            "✓ Files encrypted successfully" "No files selected for encryption"
            entries pr child
      | .decrypt =>
          runFileAction "decrypt" "Error decrypting files:"
            "✓ Files decrypted successfully" "No files selected for decryption"
            entries pr child
      | .precommit =>
          match executeCommand "dotenvx" ["ext", "precommit", "--install"] child with
          | .ok r =>
              ⟨["👍 Precommit hook installed successfully"],
                [("dotenvx", ["ext", "precommit", "--install"])], [r], none⟩
          | .error e =>
              ⟨["Error installing precommit hook:"],
                [("dotenvx", ["ext", "precommit", "--install"])], [], some e⟩
      | .exitChoice => ⟨[], [], [], some ⟨"Error", "User exited"⟩⟩
    ⟨msgInstalled :: o.logs, o.calls, o.results, o.err⟩

/-- The top-level rejection handler `main().catch` (src/index.ts:265-268):
it prints a generic error line for every rejection — it does not
distinguish the cancellation error — and calls `process.exit(1)`; when
`main` resolves, the event loop drains and the process exits 0. -/
def finalExitCode (o : MainOutcome) : Nat :=
  match o.err with
  | none => 0
  | some _ => 1

/-- Everything printed over the process lifetime: `main`'s own logs plus
the generic line the `catch` handler prints for a rejection. -/
def finalLogs (o : MainOutcome) : List String :=
  o.logs ++ (match o.err with
    | none => []
    | some e => ["❌ An error occurred: " ++ e.message])

/-- The `uncaughtException` handler (src/index.ts:256-263): a friendly
farewell for an error named `ExitPromptError`, rethrow for everything else
(`none` = rethrown). A rejection that `main().catch` already handled never
reaches this handler. -/
def uncaughtExceptionHandler (e : JsError) : Option (List String) :=
  if e.name == "ExitPromptError" then some ["👋 until next time!"] else none

/-- The `main().catch` handler of the `part_001` variant
(src/unnamed/part_001:292-302): it does special-case the cancellation
error, exiting 0 with a friendly message, and exits 1 otherwise. -/
def mainCatchExitCode_v1 (e : JsError) : Nat :=
  if e.name == "ExitPromptError" then 0 else 1

/-- Filtering after mapping after filtering is one filter with the mapped
test folded in. -/
theorem filter_map_filter_eq {α β : Type} (p : α → Bool) (f : α → β) (q : β → Bool)
    (l : List α) :
    ((l.filter p).map f).filter q = (l.filter (fun a => p a && q (f a))).map f := by
  induction l with
  | nil => rfl
  | cons a l ih =>
    cases hp : p a with
    | false => simp [List.filter_cons, hp, ih]
    | true =>
      cases hq : q (f a) with
      | false => simp [List.filter_cons, hp, hq, ih]
      | true => simp [List.filter_cons, hp, hq, ih]

/-- The glob-stage test combined with the post-filter test is exactly
`envCandidatePred`: the only interaction is that the key file `.env.keys`
ends in `.keys` and is therefore already caught by the suffix filter. -/
theorem envPred_pointwise (e : DirEntry) :
    (globEnvKeep e && (!(jsEndsWith e.name ".keys") && !(jsEndsWith e.name ".vault"))) =
      envCandidatePred e := by
  obtain ⟨s, d⟩ := e
  by_cases hks : s = ".env.keys"
  · subst hks
    cases d <;> decide
  · have h0 : (s == ".env.keys") = false := beq_eq_false_iff_ne.mpr hks
    cases d <;>
      cases h1 : jsStartsWith s ".env" <;>
        cases h2 : jsEndsWith s ".keys" <;>
          cases h3 : jsEndsWith s ".vault" <;>
            cases h4 : (s == ".env.keys.json") <;>
              simp [globEnvKeep, envCandidatePred, h0, h1, h2, h3, h4]

/-- `findEnvFiles` keeps exactly the entries satisfying `envCandidatePred`. -/
theorem findEnvFiles_eq (entries : List DirEntry) :
    findEnvFiles entries = (entries.filter envCandidatePred).map DirEntry.name := by
  unfold findEnvFiles
  rw [filter_map_filter_eq]
  exact congrArg (List.map DirEntry.name)
    (List.filter_congr (fun e _ => by simpa using envPred_pointwise e))

/-- C1 (code_bug): the spec demands that `run()` pass its arguments as a
discrete list, never collapsed into one shell string. The `part_001` runner
(`spawn(cmd, args, { shell: true })`) and the `part_000` encrypt branch
(`-f ${selectedFiles.join(" ")}` spliced raw) both collapse the list, so an
argument containing a space reaches the child split into several elements;
only the canonical zx runner (`$([cmd, ...args])`) delivers it as one
element. -/
theorem shell_runner_splits_spaced_argument :
    spawnShellArgv "dotenvx" ["encrypt", "-f", ".env my file"] =
        ["dotenvx", "encrypt", "-f", ".env", "my", "file"] ∧
      ".env my file" ∉ spawnShellArgv "dotenvx" ["encrypt", "-f", ".env my file"] ∧
      bunRawEncryptArgv [".env my file"] =
        ["dotenvx", "encrypt", "-f", ".env", "my", "file"] ∧
      zxArgv "dotenvx" ["encrypt", "-f", ".env my file"] =
        ["dotenvx", "encrypt", "-f", ".env my file"] ∧
      ".env my file" ∈ zxArgv "dotenvx" ["encrypt", "-f", ".env my file"] := by
  decide

/-- C2 (counterexample): the claim's exclusion list — only the key file
itself, its JSON variant and the vault-suffixed files — keeps
`.env.backup.keys`, but `findEnvFiles` drops every `.keys`-suffixed name,
so the two disagree on this directory. -/
theorem findEnvFiles_claim_counterexample :
    findEnvFiles [⟨".env", false⟩, ⟨".env.backup.keys", false⟩] = [".env"] ∧
      claimedEnvFiles [⟨".env", false⟩, ⟨".env.backup.keys", false⟩] =
        [".env", ".env.backup.keys"] ∧
      findEnvFiles [⟨".env", false⟩, ⟨".env.backup.keys", false⟩] ≠
        claimedEnvFiles [⟨".env", false⟩, ⟨".env.backup.keys", false⟩] := by
  decide

/-- C2 (amended): for every directory state, `findEnvFiles` returns exactly
the regular files whose names begin with `.env`, minus every file ending in
`.keys` (not only the key file itself) or `.vault`, and minus the key
file's JSON variant `.env.keys.json`; on a directory with no matching
files — in particular the empty directory — it returns the empty sequence,
never an error. -/
theorem findEnvFiles_exact_characterization (entries : List DirEntry) :
    findEnvFiles entries = (entries.filter envCandidatePred).map DirEntry.name ∧
      findEnvFiles [] = [] :=
  ⟨findEnvFiles_eq entries, rfl⟩

/-- C3 (code_bug): the canonical dispatcher never inspects the captured
exit code. With the child exiting 2 and stderr captured, the encrypt action
still logs the success message, captures the result unused, rejects with
nothing, and the process exits 0 — the claim requires a CommandFailed
report carrying the stderr text and final exit code 1. -/
theorem dispatcher_ignores_nonzero_exit :
    mainRun ⟨true, true⟩ .encrypt [⟨".env", false⟩] (.ok [".env"])
        ⟨"", "vault: encryption failed", some 2⟩ =
      ⟨[msgInstalled, "✓ Files encrypted successfully"],
        [("dotenvx", ["encrypt", "-f", ".env"])],
        [⟨"", "vault: encryption failed", 2⟩], none⟩ ∧
      finalExitCode (mainRun ⟨true, true⟩ .encrypt [⟨".env", false⟩] (.ok [".env"])
        ⟨"", "vault: encryption failed", some 2⟩) = 0 := by
  decide

/-- C4 (confirmed): for every non-empty candidate list, if the sentinel
`"ALL"` is among the values the operator confirmed, `selectFiles` returns
the entire original candidate list, whatever else was marked. -/
theorem selectFiles_all_expands_to_all_candidates (files : List String) (action : String)
    (confirmed : List String) (hne : files ≠ []) (hall : "ALL" ∈ confirmed) :
    selectFiles files action (.ok confirmed) = .ok ⟨files, true, []⟩ := by
  cases files with
  | nil => exact absurd rfl hne
  | cons a t =>
    simp [selectFiles]
    intro hno
    exact absurd hall hno

/-- Witness for C4 at the spec's own example candidates. -/
theorem selectFiles_all_expands_witness :
    [".env", ".env.local"] ≠ ([] : List String) ∧ "ALL" ∈ ["ALL", ".env"] ∧
      selectFiles [".env", ".env.local"] "encrypt" (.ok ["ALL", ".env"]) =
        .ok ⟨[".env", ".env.local"], true, []⟩ :=
  ⟨by decide, by decide,
    selectFiles_all_expands_to_all_candidates [".env", ".env.local"] "encrypt"
      ["ALL", ".env"] (by decide) (by decide)⟩

/-- C5 (code_bug): choosing Exit from the menu throws
`Error("User exited")`, which `main().catch` treats like any other failure:
the process exits 1, not the deliberate benign exit 0 the claim states. -/
theorem exit_choice_exits_one :
    mainRun ⟨true, true⟩ .exitChoice [] (.ok []) ⟨"", "", some 0⟩ =
        ⟨[msgInstalled], [], [], some ⟨"Error", "User exited"⟩⟩ ∧
      finalExitCode (mainRun ⟨true, true⟩ .exitChoice [] (.ok []) ⟨"", "", some 0⟩) = 1 := by
  decide

/-- C6 (code_bug): a cancellation rejection from the selection prompt is
caught by the action's `try`/`catch`, rethrown, and lands in the generic
`main().catch`: no subprocess is invoked (that part of the claim holds),
but the process exits 1 with the generic error line, never printing the
friendly farewell — which sits in the `uncaughtException` handler that a
handled rejection cannot reach. The `part_001` variant's catch handler is
the one that exits 0 as the claim states. -/
theorem cancelled_selection_generic_failure :
    (mainRun ⟨true, true⟩ .encrypt [⟨".env", false⟩] (.error promptCancelError)
        ⟨"", "", some 0⟩).calls = [] ∧
      (mainRun ⟨true, true⟩ .encrypt [⟨".env", false⟩] (.error promptCancelError)
        ⟨"", "", some 0⟩).err = some promptCancelError ∧
      finalExitCode (mainRun ⟨true, true⟩ .encrypt [⟨".env", false⟩]
        (.error promptCancelError) ⟨"", "", some 0⟩) = 1 ∧
      "👋 until next time!" ∉ finalLogs (mainRun ⟨true, true⟩ .encrypt [⟨".env", false⟩]
        (.error promptCancelError) ⟨"", "", some 0⟩) ∧
      ("❌ An error occurred: " ++ promptCancelError.message) ∈
        finalLogs (mainRun ⟨true, true⟩ .encrypt [⟨".env", false⟩]
          (.error promptCancelError) ⟨"", "", some 0⟩) ∧
      uncaughtExceptionHandler promptCancelError = some ["👋 until next time!"] ∧
      mainCatchExitCode_v1 promptCancelError = 0 := by
  decide

/-- C7 (confirmed): the runner resolves once the terminated child's outcome
is in hand, always with `Except.ok` — a non-zero status is never turned
into a thrown failure — carrying the child's exit status verbatim, or the
sentinel 0 when no numeric status is available. -/
theorem executeCommand_propagates_exit_status (cmd : String) (args : List String)
    (child : ChildOutcome) :
    executeCommand cmd args child = .ok ⟨child.stdout, child.stderr, child.code.getD 0⟩ ∧
      (∀ n, child.code = some n →
        executeCommand cmd args child = .ok ⟨child.stdout, child.stderr, n⟩) ∧
      (child.code = none → executeCommand cmd args child = .ok ⟨child.stdout, child.stderr, 0⟩) := by
  refine ⟨rfl, ?_, ?_⟩
  · intro n hn
    simp [executeCommand, hn]
  · intro hn
    simp [executeCommand, hn]

/-- Witness for C7 at a child that exited 2. -/
theorem executeCommand_propagates_exit_status_witness :
    executeCommand "dotenvx" ["encrypt", "-f", ".env"] ⟨"out", "err", some 2⟩ =
      .ok ⟨"out", "err", 2⟩ :=
  (executeCommand_propagates_exit_status "dotenvx" ["encrypt", "-f", ".env"]
      ⟨"out", "err", some 2⟩).2.1 2 rfl

/-- C8 (confirmed): on the empty candidate list `selectFiles` returns the
empty selection at once; the outcome is the same for every possible prompt
result, and `promptInvoked` is `false` — the interactive capability is
never consulted. -/
theorem selectFiles_empty_short_circuits (action : String)
    (pr : Except JsError (List String)) :
    selectFiles [] action pr =
      .ok ⟨[], false, ["No .env files found in the current directory."]⟩ := rfl

/-- C9 (counterexample): with the vault tool also unavailable, the
orchestrator stops at the dotenvx check and the "create a key file"
remediation is never shown — the claim's "independent of vault tool
availability" fails. -/
theorem key_remediation_skipped_when_vault_missing :
    msgKeysMissing ∉ finalLogs (mainRun ⟨false, false⟩ .encrypt [] (.ok []) ⟨"", "", some 0⟩) ∧
      msgDotenvxMissing ∈ finalLogs (mainRun ⟨false, false⟩ .encrypt [] (.ok []) ⟨"", "", some 0⟩) ∧
      finalExitCode (mainRun ⟨false, false⟩ .encrypt [] (.ok []) ⟨"", "", some 0⟩) = 1 := by
  decide

/-- C9 (amended): whenever the key file is absent the probe reports it
absent and the process exits 1; the "create a key file" remediation is
shown when the vault tool is available — when it is not, the vault-tool
remediation takes precedence (the dotenvx check runs first). -/
theorem key_file_absent_blocks (p : Prerequisites) (a : MenuAction)
    (entries : List DirEntry) (pr : Except JsError (List String)) (child : ChildOutcome)
    (hk : p.isEnvKeysFilePresent = false) :
    checkEnvKeysFile none = false ∧
      finalExitCode (mainRun p a entries pr child) = 1 ∧
      (p.isDotenvxInstalled = true → msgKeysMissing ∈ (mainRun p a entries pr child).logs) := by
  obtain ⟨v, k⟩ := p
  cases k
  · cases v
    · exact ⟨rfl, by simp [mainRun, finalExitCode], fun h => absurd h (by decide)⟩
    · exact ⟨rfl, by simp [mainRun, finalExitCode], fun _ => by simp [mainRun]⟩
  · exact Bool.noConfusion hk

/-- Witness for C9 (amended) with the vault tool available and the key file
absent. -/
theorem key_file_absent_blocks_witness :
    checkEnvKeysFile none = false ∧
      finalExitCode (mainRun ⟨true, false⟩ .encrypt [] (.ok []) ⟨"", "", some 0⟩) = 1 ∧
      ((⟨true, false⟩ : Prerequisites).isDotenvxInstalled = true →
        msgKeysMissing ∈ (mainRun ⟨true, false⟩ .encrypt [] (.ok []) ⟨"", "", some 0⟩).logs) :=
  key_file_absent_blocks ⟨true, false⟩ .encrypt [] (.ok []) ⟨"", "", some 0⟩ rfl

/-- C10 (confirmed): every candidate discovery returns begins with `.env`
and ends in neither `.keys` nor `.vault`; in particular no candidate can be
the string `"ALL"`, so the select-all sentinel never collides with a real
candidate name. -/
theorem findEnvFiles_no_sentinel_collision (entries : List DirEntry) (f : String)
    (hf : f ∈ findEnvFiles entries) :
    jsStartsWith f ".env" = true ∧ jsEndsWith f ".keys" = false ∧
      jsEndsWith f ".vault" = false ∧ f ≠ "ALL" := by
  rw [findEnvFiles_eq] at hf
  obtain ⟨e, he, rfl⟩ := List.mem_map.mp hf
  have hp : envCandidatePred e = true := (List.mem_filter.mp he).2
  unfold envCandidatePred at hp
  rw [Bool.and_eq_true, Bool.and_eq_true, Bool.and_eq_true, Bool.and_eq_true] at hp
  obtain ⟨⟨⟨⟨_, hs⟩, hk⟩, hv⟩, hj⟩ := hp
  have hk' : jsEndsWith e.name ".keys" = false := by simpa using hk
  have hv' : jsEndsWith e.name ".vault" = false := by simpa using hv
  refine ⟨hs, hk', hv', ?_⟩
  intro hAll
  rw [hAll] at hs
  exact absurd hs (by decide)

/-- Witness for C10 at a one-file directory. -/
theorem findEnvFiles_no_sentinel_collision_witness :
    jsStartsWith ".env" ".env" = true ∧ jsEndsWith ".env" ".keys" = false ∧
      jsEndsWith ".env" ".vault" = false ∧ ".env" ≠ "ALL" :=
  findEnvFiles_no_sentinel_collision [⟨".env", false⟩] ".env" (by decide)
